import Mathlib

/-!
Shallow embedding of the core of the charity-mcp-server repository:

* the fixed/sliding-window rate limiter of `dist/services/rate-limiter.js`
  (class `RateLimiter`: `checkRateLimit`, `getRemainingRequests`,
  `getResetTime`, `cleanup`);
* the resilient HTTP client of `src/tools/public-charity-check.ts`
  (class `CharityAPIClient`: the axios response interceptor's
  `handleAxiosError`, `isRetryableError`, `retryRequest`).

Timestamps are epoch milliseconds, modelled as `Int` (JS `Date.now()`
arithmetic is exact integer arithmetic in the ranges involved).
-/

namespace CharityMCP

/-- A per-key bucket: the array of admitted-request timestamps the JS code
stores as `number[]`. -/
abbrev Bucket := List Int

/-- The `Map<string, number[]>` held in `RateLimiter.requests`, modelled as an
insertion-ordered association list (JS `Map` iteration order). -/
abbrev ReqMap := List (String × Bucket)

/-- JS `Map.prototype.get`: the value of the first (unique) entry for `k`. -/
def ReqMap.get : ReqMap → String → Option Bucket
  | [], _ => none
  | (k2, v) :: rest, k => if k2 = k then some v else ReqMap.get rest k

/-- JS `Map.prototype.set`: replace the entry for `k` in place, or append a
new entry at the end. -/
def ReqMap.set : ReqMap → String → Bucket → ReqMap
  | [], k, v => [(k, v)]
  | (k2, v2) :: rest, k, v =>
      if k2 = k then (k, v) :: rest else (k2, v2) :: ReqMap.set rest k v

/-- The `RateLimiter` class state (`dist/services/rate-limiter.js` lines 2-9):
`requests`, `windowMs`, `maxRequests`. -/
structure RateLimiter where
  requests : ReqMap
  windowMs : Int
  maxRequests : Nat
deriving DecidableEq

/-- The constructor `new RateLimiter(maxRequests, windowMs)`: an empty map. -/
def RateLimiter.init (maxRequests : Nat) (windowMs : Int) : RateLimiter :=
  ⟨[], windowMs, maxRequests⟩

/-- `RateLimiter.checkRateLimit` (lines 10-23). `now` is the `Date.now()`
value observed at the call. Returns the boolean result together with the
state after the call: the JS method mutates `this.requests` only on the
admit path (`validRequests.push(now); this.requests.set(...)`); on the deny
path it returns `false` without writing. -/
def RateLimiter.checkRateLimit (rl : RateLimiter) (now : Int) (identifier : String) :
    Bool × RateLimiter :=
  let requests := (rl.requests.get identifier).getD []
  let validRequests := requests.filter fun time => now - time < rl.windowMs
  if validRequests.length ≥ rl.maxRequests then
    (false, rl)
  else
    (true, { rl with requests := rl.requests.set identifier (validRequests ++ [now]) })

/-- `RateLimiter.getRemainingRequests` (lines 24-29):
`Math.max(0, this.maxRequests - validRequests.length)`. The JS method
contains no write to `this.requests`, so it is embedded as a pure
function of the state. -/
def RateLimiter.getRemainingRequests (rl : RateLimiter) (now : Int) (identifier : String) :
    Int :=
  let requests := (rl.requests.get identifier).getD []
  let validRequests := requests.filter fun time => now - time < rl.windowMs
  max 0 ((rl.maxRequests : Int) - validRequests.length)

/-- `RateLimiter.getResetTime` (lines 30-36): `0` for an absent or empty
bucket, else `Math.min(...requests) + this.windowMs` over the raw (unpruned)
bucket. No write to `this.requests`, so embedded as a pure function. -/
def RateLimiter.getResetTime (rl : RateLimiter) (identifier : String) : Int :=
  match (rl.requests.get identifier).getD [] with
  | [] => 0
  | x :: xs => xs.foldl min x + rl.windowMs

/-- Body of the `cleanup` loop (lines 38-49): for each entry, filter the
bucket; delete the key if nothing is left, otherwise store the filtered
bucket. The JS `for (... of this.requests.entries())` visits each original
entry once (a `set` of an existing key and a `delete` of the current key do
not disturb `Map` iteration), so the loop acts entrywise, order preserved. -/
def cleanupEntries (windowMs : Int) (now : Int) : ReqMap → ReqMap
  | [] => []
  | (identifier, requests) :: rest =>
      let validRequests := requests.filter fun time => now - time < windowMs
      if validRequests.length = 0 then
        cleanupEntries windowMs now rest
      else
        (identifier, validRequests) :: cleanupEntries windowMs now rest

/-- `RateLimiter.cleanup` (`sweep` in the spec's vocabulary). -/
def RateLimiter.cleanup (rl : RateLimiter) (now : Int) : RateLimiter :=
  { rl with requests := cleanupEntries rl.windowMs now rl.requests }

/-- A fixed number of consecutive `checkRateLimit` calls for one key at one
clock instant: the list of boolean results in order, and the final state. -/
def RateLimiter.admitTimes (rl : RateLimiter) (now : Int) (k : String) :
    Nat → List Bool × RateLimiter
  | 0 => ([], rl)
  | n + 1 =>
      let r := rl.checkRateLimit now k
      let rest := r.2.admitTimes now k n
      (r.1 :: rest.1, rest.2)

/-- Modelled from the spec's words (§4.1 `remaining`): `countValid` filters
the bucket to timestamps within `windowMs` of now. -/
def countValid (rl : RateLimiter) (now : Int) (k : String) : Nat :=
  (((rl.requests.get k).getD []).filter fun t => now - t < rl.windowMs).length

/-- Modelled from the spec's words (§4.1 `remaining`):
`max(0, maxRequests - countValid(key))`. -/
def specRemaining (rl : RateLimiter) (now : Int) (k : String) : Int :=
  max 0 ((rl.maxRequests : Int) - countValid rl now k)

/-- The retry-relevant part of `CharityAPIConfig`
(`src/tools/public-charity-check.ts`): `maxRetries` and `retryDelay`
(milliseconds). `baseURL`, `apiKey` and `timeout` configure the transport
and play no part in the retry or error-mapping logic. -/
structure CharityAPIConfig where
  maxRetries : Nat
  retryDelay : Nat
deriving DecidableEq

/-- `CharityAPIError` (`src/utils/error-handler.ts`): `message`, optional
`statusCode`; the wrapped `originalError` is diagnostic only and is not
inspected by any code modelled here. -/
structure CharityAPIError where
  message : String
  statusCode : Option Nat
deriving DecidableEq

/-- An axios-level failure as far as `CharityAPIClient` inspects it:
`response` is the status code of the received HTTP response when one
arrived (`error.response?.status`), `none` for a network-level failure;
`message` is `error.message`. -/
structure AxiosFailure where
  response : Option Nat
  message : String
deriving DecidableEq

/-- `CharityAPIClient.handleAxiosError` (the response interceptor's error
path): maps the failure to the `CharityAPIError` it throws, switching on
`status = error.response?.status`. -/
def handleAxiosError (e : AxiosFailure) : CharityAPIError :=
  match e.response with
  | some 400 => ⟨"Invalid request parameters", some 400⟩
  | some 401 => ⟨"Invalid API key or unauthorized", some 401⟩
  | some 403 => ⟨"Access forbidden - check API permissions", some 403⟩
  | some 404 => ⟨"Charity not found", some 404⟩
  | some 429 => ⟨"Rate limit exceeded", some 429⟩
  | some 500 => ⟨"Internal server error", some 500⟩
  | s => ⟨"API request failed: " ++ e.message, s⟩

/-- The value `retryRequest`'s catch block receives and passes to
`isRetryableError(error as AxiosError)`. A raw `AxiosError` carries its
`response`; a `CharityAPIError` (what the response interceptor actually
throws) has no `response` property, so reading it yields `undefined`. -/
inductive CaughtError where
  | axios (e : AxiosFailure)
  | charityAPI (e : CharityAPIError)

/-- The JS property read `error.response` (then `.status`) performed by
`isRetryableError`: `CharityAPIError` instances have no such property. -/
def CaughtError.response : CaughtError → Option Nat
  | .axios e => e.response
  | .charityAPI _ => none

/-- `CharityAPIClient.isRetryableError`: `if (!error.response) return true;
return status >= 500 || status === 429;`. -/
def isRetryableError (e : CaughtError) : Bool :=
  match e.response with
  | none => true
  | some status => decide (status ≥ 500) || decide (status = 429)

/-- What the upstream does with one attempt: a 2xx response with a payload,
or an axios-level failure (HTTP error status or network failure). An
upstream mock is a function from the attempt index to its outcome. -/
inductive RequestOutcome where
  | ok (payload : String)
  | err (e : AxiosFailure)

/-- One `requestFn()` call, i.e. `this.client.get(...)` through the
response interceptor: a success resolves with the payload; a failure is
converted by `handleAxiosError` into the thrown `CharityAPIError`. -/
def clientGet (upstream : Nat → RequestOutcome) (attempt : Nat) :
    Except CharityAPIError String :=
  match upstream attempt with
  | .ok payload => .ok payload
  | .err e => .error (handleAxiosError e)

/-- Observable behaviour of one logical client call: the settled value,
the number of `requestFn()` invocations, and the arguments of the
`delay(ms)` waits in order. -/
structure RetryResult where
  result : Except CharityAPIError String
  attempts : Nat
  waits : List Nat

/-- `CharityAPIClient.retryRequest`: try `requestFn()`; on failure, if
`retryCount < maxRetries` and the caught error is classified retryable,
wait `retryDelay * 2 ^ retryCount` and recurse with `retryCount + 1`,
otherwise rethrow. The caught error is the `CharityAPIError` thrown by the
interceptor, fed to `isRetryableError` as `CaughtError.charityAPI`. -/
def retryRequest (cfg : CharityAPIConfig) (upstream : Nat → RequestOutcome)
    (retryCount : Nat) : RetryResult :=
  match clientGet upstream retryCount with
  | .ok payload => ⟨.ok payload, 1, []⟩
  | .error e =>
      if h : (decide (retryCount < cfg.maxRetries) && isRetryableError (.charityAPI e)) = true then
        let rest := retryRequest cfg upstream (retryCount + 1)
        ⟨rest.result, rest.attempts + 1, cfg.retryDelay * 2 ^ retryCount :: rest.waits⟩
      else
        ⟨.error e, 1, []⟩
termination_by cfg.maxRetries - retryCount
decreasing_by
  simp only [Bool.and_eq_true, decide_eq_true_eq] at h
  exact Nat.sub_succ_lt_self _ _ h.1

/-- One logical operation (`lookupCharity`, `checkPublicCharity`,
`searchCharities`, `listOrganizations` all have the shape
`await this.retryRequest(() => this.client.get(...))`): the retry loop
started at `retryCount = 0`. -/
def clientCall (cfg : CharityAPIConfig) (upstream : Nat → RequestOutcome) : RetryResult :=
  retryRequest cfg upstream 0

/-- The local `validRequests` computed by `checkRateLimit` and
`getRemainingRequests`: the bucket filtered to the current window. -/
def validRequests (rl : RateLimiter) (now : Int) (k : String) : Bucket :=
  ((rl.requests.get k).getD []).filter fun time => now - time < rl.windowMs

/-! ### Theorems -/

theorem ReqMap.get_set_self (m : ReqMap) (k : String) (v : Bucket) :
    (m.set k v).get k = some v := by
  induction m with
  | nil => simp [ReqMap.set, ReqMap.get]
  | cons e rest ih =>
    obtain ⟨k2, v2⟩ := e
    by_cases h : k2 = k
    · simp [ReqMap.set, ReqMap.get, h]
    · simp [ReqMap.set, ReqMap.get, h, ih]

theorem ReqMap.get_set_ne (m : ReqMap) (k k2 : String) (v : Bucket) (h : k2 ≠ k) :
    (m.set k v).get k2 = m.get k2 := by
  induction m with
  | nil => simp [ReqMap.set, ReqMap.get, Ne.symm h]
  | cons e rest ih =>
    obtain ⟨k3, v3⟩ := e
    by_cases h3 : k3 = k
    · subst h3
      simp [ReqMap.set, ReqMap.get, Ne.symm h]
    · simp [ReqMap.set, ReqMap.get, h3, ih]

theorem checkRateLimit_eq (rl : RateLimiter) (now : Int) (k : String) :
    rl.checkRateLimit now k =
      if (validRequests rl now k).length ≥ rl.maxRequests then (false, rl)
      else
        (true, { rl with requests := rl.requests.set k (validRequests rl now k ++ [now]) }) :=
  rfl

theorem checkRateLimit_fst_congr (rl1 rl2 : RateLimiter) (now : Int) (k : String)
    (hw : rl1.windowMs = rl2.windowMs) (hm : rl1.maxRequests = rl2.maxRequests)
    (hg : rl1.requests.get k = rl2.requests.get k) :
    (rl1.checkRateLimit now k).1 = (rl2.checkRateLimit now k).1 := by
  rw [checkRateLimit_eq, checkRateLimit_eq]
  unfold validRequests
  rw [hw, hm, hg]
  split <;> rfl

theorem filter_replicate_of_pos (p : Int → Bool) (n : Nat) (a : Int) (h : p a = true) :
    (List.replicate n a).filter p = List.replicate n a := by
  induction n with
  | zero => rfl
  | succ n ih => simp [List.replicate_succ, List.filter_cons, h, ih]

theorem filter_replicate_of_neg (p : Int → Bool) (n : Nat) (a : Int) (h : p a = false) :
    (List.replicate n a).filter p = [] := by
  induction n with
  | zero => rfl
  | succ n ih => simp [List.replicate_succ, List.filter_cons, h, ih]

theorem checkRateLimit_replicate_step (N : Nat) (W t0 : Int) (k : String)
    (hW : 1 ≤ W) (i : Nat) (hi : i < N) :
    RateLimiter.checkRateLimit ⟨[(k, List.replicate i t0)], W, N⟩ t0 k =
      (true, ⟨[(k, List.replicate (i + 1) t0)], W, N⟩) := by
  have hv : validRequests ⟨[(k, List.replicate i t0)], W, N⟩ t0 k = List.replicate i t0 := by
    unfold validRequests
    simp only [ReqMap.get, if_pos rfl, Option.getD_some]
    exact filter_replicate_of_pos _ _ _ (by simp; omega)
  rw [checkRateLimit_eq, hv, if_neg (by simp; omega)]
  simp [ReqMap.set, ← List.replicate_succ']

theorem checkRateLimit_init_step (N : Nat) (W t0 : Int) (k : String) (hN : 1 ≤ N) :
    RateLimiter.checkRateLimit (RateLimiter.init N W) t0 k =
      (true, ⟨[(k, [t0])], W, N⟩) := by
  have hv : validRequests (RateLimiter.init N W) t0 k = [] := rfl
  rw [checkRateLimit_eq, hv, if_neg (by simp [RateLimiter.init]; omega)]
  rfl

theorem admitTimes_all_true (N : Nat) (W t0 : Int) (k : String) (hW : 1 ≤ W) :
    ∀ n i, i + n ≤ N →
      RateLimiter.admitTimes ⟨[(k, List.replicate i t0)], W, N⟩ t0 k n =
        (List.replicate n true, ⟨[(k, List.replicate (i + n) t0)], W, N⟩) := by
  intro n
  induction n with
  | zero =>
    intro i h2
    simp [RateLimiter.admitTimes]
  | succ n ih =>
    intro i h2
    have hstep := checkRateLimit_replicate_step N W t0 k hW i (by omega)
    have hrest := ih (i + 1) (by omega)
    simp only [RateLimiter.admitTimes, hstep, hrest]
    have harith : i + 1 + n = i + (n + 1) := by omega
    rw [harith]
    simp [List.replicate_succ]

theorem admitTimes_init (N : Nat) (W t0 : Int) (k : String) (hW : 1 ≤ W) (hN : 1 ≤ N) :
    RateLimiter.admitTimes (RateLimiter.init N W) t0 k N =
      (List.replicate N true, ⟨[(k, List.replicate N t0)], W, N⟩) := by
  obtain ⟨m, rfl⟩ : ∃ m, N = m + 1 := ⟨N - 1, by omega⟩
  have hstep := checkRateLimit_init_step (m + 1) W t0 k hN
  have hrest := admitTimes_all_true (m + 1) W t0 k hW m 1 (by omega)
  simp only [RateLimiter.admitTimes, hstep]
  have h1 : [t0] = List.replicate 1 t0 := rfl
  rw [h1, hrest]
  have harith : 1 + m = m + 1 := by omega
  rw [harith]
  simp [List.replicate_succ]

theorem checkRateLimit_full_denied (N : Nat) (W t0 : Int) (k : String) (hW : 1 ≤ W) :
    (RateLimiter.checkRateLimit ⟨[(k, List.replicate N t0)], W, N⟩ t0 k).1 = false := by
  have hv : validRequests ⟨[(k, List.replicate N t0)], W, N⟩ t0 k = List.replicate N t0 := by
    unfold validRequests
    simp only [ReqMap.get, if_pos rfl, Option.getD_some]
    exact filter_replicate_of_pos _ _ _ (by simp; omega)
  rw [checkRateLimit_eq, hv, if_pos (by simp)]

theorem checkRateLimit_expired (N : Nat) (W t0 now2 : Int) (k : String) (hN : 1 ≤ N)
    (h : t0 + W ≤ now2) :
    (RateLimiter.checkRateLimit ⟨[(k, List.replicate N t0)], W, N⟩ now2 k).1 = true := by
  have hv : validRequests ⟨[(k, List.replicate N t0)], W, N⟩ now2 k = [] := by
    unfold validRequests
    simp only [ReqMap.get, if_pos rfl, Option.getD_some]
    exact filter_replicate_of_neg _ _ _ (by simp; omega)
  rw [checkRateLimit_eq, hv, if_neg (by simp; omega)]

/-- C3 (amended with `1 ≤ windowMs`): on a fresh limiter with
`maxRequests = N ≥ 1` and `windowMs = W ≥ 1`, the first `N` `admit(k)` calls
at one instant `t0` all return `true`, the `(N+1)`-th at `t0` returns
`false`, and any later `admit(k)` at a time `≥ t0 + W` returns `true` even
though the bucket was full. -/
theorem window_capacity_and_expiry (N : Nat) (W t0 : Int) (k : String)
    (hN : 1 ≤ N) (hW : 1 ≤ W) :
    (RateLimiter.admitTimes (RateLimiter.init N W) t0 k N).1 = List.replicate N true
  ∧ ((RateLimiter.admitTimes (RateLimiter.init N W) t0 k N).2.checkRateLimit t0 k).1 = false
  ∧ ∀ now2, t0 + W ≤ now2 →
      ((RateLimiter.admitTimes (RateLimiter.init N W) t0 k N).2.checkRateLimit now2 k).1 =
        true := by
  rw [admitTimes_init N W t0 k hW hN]
  exact ⟨rfl, checkRateLimit_full_denied N W t0 k hW,
    fun now2 h => checkRateLimit_expired N W t0 now2 k hN h⟩

/-- C3 witness: Scenario A of the spec, N = 3, W = 1000 ms at t0 = 0,
expiry checked at t = 1001. -/
theorem window_capacity_and_expiry_witness :
    (RateLimiter.admitTimes (RateLimiter.init 3 1000) 0 "k" 3).1 = List.replicate 3 true
  ∧ ((RateLimiter.admitTimes (RateLimiter.init 3 1000) 0 "k" 3).2.checkRateLimit 0 "k").1 =
      false
  ∧ ((RateLimiter.admitTimes (RateLimiter.init 3 1000) 0 "k" 3).2.checkRateLimit 1001 "k").1 =
      true := by
  have h := window_capacity_and_expiry 3 1000 0 "k" (by norm_num) (by norm_num)
  exact ⟨h.1, h.2.1, h.2.2 1001 (by norm_num)⟩

/-- C3 counterexample to the unamended claim: with `windowMs = 0` and
`maxRequests = 1`, the second `admit(k)` at the same instant returns `true`
(the stored timestamp is already outside the zero-width window), where the
claim requires the `(N+1)`-th call to return `false`. -/
theorem window_capacity_fails_for_zero_window :
    (RateLimiter.admitTimes (RateLimiter.init 1 0) 0 "k" 1).1 = [true]
  ∧ ((RateLimiter.admitTimes (RateLimiter.init 1 0) 0 "k" 1).2.checkRateLimit 0 "k").1 =
      true := by
  decide

/-- C5: a `true` result of `checkRateLimit` appends `now` to `k`'s (pruned)
bucket in the same call; a `false` result leaves the whole state untouched;
no other key's bucket is touched; and the admission decision for another
key is unaffected by the call, so exhausting one key's quota does not
affect another key. -/
theorem admit_atomic_and_key_isolated (rl : RateLimiter) (now : Int) (k : String) :
    ((rl.checkRateLimit now k).1 = true →
      (rl.checkRateLimit now k).2.requests.get k = some (validRequests rl now k ++ [now]))
  ∧ ((rl.checkRateLimit now k).1 = false → (rl.checkRateLimit now k).2 = rl)
  ∧ (∀ k2, k2 ≠ k → (rl.checkRateLimit now k).2.requests.get k2 = rl.requests.get k2)
  ∧ (∀ k2 now2, k2 ≠ k →
      ((rl.checkRateLimit now k).2.checkRateLimit now2 k2).1 =
        (rl.checkRateLimit now2 k2).1) := by
  by_cases h : (validRequests rl now k).length ≥ rl.maxRequests
  · have he : rl.checkRateLimit now k = (false, rl) := by
      rw [checkRateLimit_eq, if_pos h]
    rw [he]
    exact ⟨by simp, fun _ => rfl, fun k2 _ => rfl, fun k2 now2 _ => rfl⟩
  · have he : rl.checkRateLimit now k =
        (true, { rl with requests := rl.requests.set k (validRequests rl now k ++ [now]) }) := by
      rw [checkRateLimit_eq, if_neg h]
    rw [he]
    refine ⟨fun _ => ReqMap.get_set_self _ _ _, by simp, ?_, ?_⟩
    · intro k2 hne
      exact ReqMap.get_set_ne _ _ _ _ hne
    · intro k2 now2 hne
      exact checkRateLimit_fst_congr _ _ now2 k2 rfl rfl (ReqMap.get_set_ne _ _ _ _ hne)

theorem checkRateLimit_true_state (rl : RateLimiter) (now : Int) (k : String)
    (h : (rl.checkRateLimit now k).1 = true) :
    (rl.checkRateLimit now k).2 =
      { rl with requests := rl.requests.set k (validRequests rl now k ++ [now]) } ∧
    (validRequests rl now k).length < rl.maxRequests := by
  rw [checkRateLimit_eq] at h ⊢
  by_cases hc : (validRequests rl now k).length ≥ rl.maxRequests
  · rw [if_pos hc] at h
    simp at h
  · rw [if_neg hc]
    exact ⟨rfl, by omega⟩

theorem checkRateLimit_false_state (rl : RateLimiter) (now : Int) (k : String)
    (h : (rl.checkRateLimit now k).1 = false) :
    (rl.checkRateLimit now k).2 = rl := by
  rw [checkRateLimit_eq] at h ⊢
  by_cases hc : (validRequests rl now k).length ≥ rl.maxRequests
  · rw [if_pos hc]
  · rw [if_neg hc] at h
    simp at h

theorem mem_validRequests (rl : RateLimiter) (now : Int) (k : String) (t : Int)
    (h : t ∈ validRequests rl now k) : now - t < rl.windowMs := by
  unfold validRequests at h
  have := (List.mem_filter.1 h).2
  simpa using this

theorem mem_cleanupEntries (w now : Int) :
    ∀ (m : ReqMap) (e : String × Bucket), e ∈ cleanupEntries w now m →
      ∀ t ∈ e.2, now - t < w := by
  intro m
  induction m with
  | nil => intro e he; simp [cleanupEntries] at he
  | cons e2 rest ih =>
    obtain ⟨k2, b⟩ := e2
    intro e he t ht
    simp only [cleanupEntries] at he
    by_cases hl : (b.filter fun time => now - time < w).length = 0
    · rw [if_pos hl] at he
      exact ih e he t ht
    · rw [if_neg hl] at he
      rcases List.mem_cons.1 he with rfl | he2
      · have := (List.mem_filter.1 ht).2
        simpa using this
      · exact ih e he2 t ht

/-- C4 (amended): the stored bucket is fully pruned immediately after a
successful `admit` (given `windowMs ≥ 1`) and after `sweep`; a denied
`admit` leaves the state untouched (and `remaining` / `resetAt` perform no
write at all), so after those reads stale timestamps may remain stored. -/
theorem bucket_pruned_only_on_write (rl : RateLimiter) (now : Int) (k : String)
    (hW : 1 ≤ rl.windowMs) :
    ((rl.checkRateLimit now k).1 = true →
      ∀ t ∈ ((rl.checkRateLimit now k).2.requests.get k).getD [], now - t < rl.windowMs)
  ∧ ((rl.checkRateLimit now k).1 = false → (rl.checkRateLimit now k).2 = rl)
  ∧ (∀ e ∈ (rl.cleanup now).requests, ∀ t ∈ e.2, now - t < rl.windowMs) := by
  refine ⟨?_, checkRateLimit_false_state rl now k, ?_⟩
  · intro h t ht
    obtain ⟨hs, -⟩ := checkRateLimit_true_state rl now k h
    rw [hs] at ht
    simp only [ReqMap.get_set_self, Option.getD_some] at ht
    rcases List.mem_append.1 ht with h1 | h2
    · exact mem_validRequests rl now k t h1
    · simp only [List.mem_singleton] at h2
      subst h2
      omega
  · intro e he
    exact mem_cleanupEntries rl.windowMs now rl.requests e he

/-- C4 witness: a limiter (max 1, window 10) whose key was admitted at
t = 0; a denied `admit` at t = 5 leaves the state exactly as it was. -/
theorem bucket_pruned_only_on_write_witness :
    ((((RateLimiter.init 1 10).checkRateLimit 0 "k").2).checkRateLimit 5 "k").2 =
      ((RateLimiter.init 1 10).checkRateLimit 0 "k").2 := by
  have h := bucket_pruned_only_on_write (((RateLimiter.init 1 10).checkRateLimit 0 "k").2)
    5 "k" (by decide)
  exact h.2.1 (by decide)

/-- C4 counterexample to the claim as stated: after admitting key `k` at
t = 0 (max 1, window 10 ms), the read `getRemainingRequests` at t = 20
computes on a pruned copy but writes nothing back, so immediately after
that read the stored bucket still holds the stale timestamp 0 with
`now - 0 ≥ windowMs`. -/
theorem stale_entry_survives_read :
    (((RateLimiter.init 1 10).checkRateLimit 0 "k").2).getRemainingRequests 20 "k" = 1
  ∧ (((RateLimiter.init 1 10).checkRateLimit 0 "k").2).requests.get "k" = some [0]
  ∧ ¬ ((20 : Int) - 0 < (((RateLimiter.init 1 10).checkRateLimit 0 "k").2).windowMs) := by
  decide

/-- C10 (amended with `1 ≤ windowMs`): a successful `admit` stores only
in-window timestamps and a bucket of length at most `maxRequests`; `sweep`
stores only in-window timestamps; a denied `admit` (and the pure reads)
writes nothing, so a denied `admit` on a never-admitted key creates no
bucket and `resetAt` for that key returns 0. -/
theorem write_invariants (rl : RateLimiter) (now : Int) (k : String)
    (hW : 1 ≤ rl.windowMs) :
    ((rl.checkRateLimit now k).1 = true →
      (∀ t ∈ ((rl.checkRateLimit now k).2.requests.get k).getD [], now - t < rl.windowMs)
      ∧ (((rl.checkRateLimit now k).2.requests.get k).getD []).length ≤ rl.maxRequests)
  ∧ ((rl.checkRateLimit now k).1 = false → (rl.checkRateLimit now k).2 = rl)
  ∧ (∀ e ∈ (rl.cleanup now).requests, ∀ t ∈ e.2, now - t < rl.windowMs)
  ∧ (rl.requests.get k = none → (rl.checkRateLimit now k).1 = false →
      (rl.checkRateLimit now k).2.requests.get k = none
      ∧ (rl.checkRateLimit now k).2.getResetTime k = 0) := by
  refine ⟨?_, checkRateLimit_false_state rl now k, ?_, ?_⟩
  · intro h
    obtain ⟨hs, hlen⟩ := checkRateLimit_true_state rl now k h
    rw [hs]
    simp only [ReqMap.get_set_self, Option.getD_some]
    refine ⟨?_, by simp; omega⟩
    intro t ht
    rcases List.mem_append.1 ht with h1 | h2
    · exact mem_validRequests rl now k t h1
    · simp only [List.mem_singleton] at h2
      subst h2
      omega
  · intro e he
    exact mem_cleanupEntries rl.windowMs now rl.requests e he
  · intro hnone hfalse
    have hs := checkRateLimit_false_state rl now k hfalse
    rw [hs]
    refine ⟨hnone, ?_⟩
    unfold RateLimiter.getResetTime
    rw [hnone]
    rfl

/-- C10 witness: with `maxRequests = 0` every `admit` is denied; a denied
`admit` on the never-admitted key `k` creates no bucket and `resetAt`
returns 0. -/
theorem write_invariants_witness :
    ((RateLimiter.init 0 10).checkRateLimit 5 "k").2 = RateLimiter.init 0 10
  ∧ ((RateLimiter.init 0 10).checkRateLimit 5 "k").2.getResetTime "k" = 0 := by
  have h := write_invariants (RateLimiter.init 0 10) 5 "k" (by decide)
  exact ⟨h.2.1 (by decide), (h.2.2.2 rfl (by decide)).2⟩

/-- C10 counterexample to the claim as stated: with `windowMs = 0`, a
successful `admit` at t = 5 stores the bucket `[5]`, whose timestamp
violates `now - t < windowMs` (`0 < 0` is false). -/
theorem admit_stores_now_outside_zero_window :
    ((RateLimiter.init 1 0).checkRateLimit 5 "k").1 = true
  ∧ ((RateLimiter.init 1 0).checkRateLimit 5 "k").2.requests.get "k" = some [5]
  ∧ ¬ ((5 : Int) - 5 < ((RateLimiter.init 1 0).checkRateLimit 5 "k").2.windowMs) := by
  decide

/-- C6 (amended with `1 ≤ windowMs` for the consistency consequence):
`getRemainingRequests` is exactly the spec's
`max(0, maxRequests - countValid(key))` (and performs no write), and right
after a successful `admit` of key `k` in a freshly-seen window — no stored
timestamp of `k` is still inside the window, i.e. `countValid` is 0,
whether the key is new or its entries are all stale — it returns
`maxRequests - 1`. -/
theorem remaining_formula_and_consistency (rl : RateLimiter) (now : Int) (k : String) :
    rl.getRemainingRequests now k = specRemaining rl now k
  ∧ (countValid rl now k = 0 → 1 ≤ rl.windowMs → (rl.checkRateLimit now k).1 = true →
      (rl.checkRateLimit now k).2.getRemainingRequests now k = (rl.maxRequests : Int) - 1) := by
  constructor
  · rfl
  · intro h0 hW htrue
    obtain ⟨hs, hlen⟩ := checkRateLimit_true_state rl now k htrue
    have hv : validRequests rl now k = [] := by
      have hl : (validRequests rl now k).length = 0 := h0
      exact List.length_eq_zero.1 hl
    rw [hs]
    unfold RateLimiter.getRemainingRequests
    simp only [hv, List.nil_append, ReqMap.get_set_self, Option.getD_some]
    have hp : now - now < rl.windowMs := by omega
    have hmax : 1 ≤ rl.maxRequests := by
      rw [hv] at hlen
      simpa using hlen
    simp only [List.filter_cons, hp, decide_eq_true_eq, if_pos, List.filter_nil,
      List.length_cons, List.length_nil]
    rw [max_eq_right (by push_cast; omega)]
    push_cast
    ring

/-- C6 counterexample to the claim as stated: with `windowMs = 0` the first
`admit` on a fresh key succeeds, yet `remaining` immediately afterwards
returns `maxRequests` (the just-stored timestamp is already outside the
zero-width window), not `maxRequests - 1`. -/
theorem remaining_after_admit_fails_for_zero_window :
    ((RateLimiter.init 1 0).checkRateLimit 0 "k").1 = true
  ∧ ¬ (((RateLimiter.init 1 0).checkRateLimit 0 "k").2.getRemainingRequests 0 "k" =
        ((RateLimiter.init 1 0).maxRequests : Int) - 1) := by
  decide

theorem foldl_min_mem_cons (xs : List Int) : ∀ x : Int, xs.foldl min x ∈ x :: xs := by
  induction xs with
  | nil => intro x; simp [List.foldl]
  | cons y ys ih =>
    intro x
    have h := ih (min x y)
    have hfold : List.foldl min x (y :: ys) = List.foldl min (min x y) ys := rfl
    rw [hfold]
    rcases List.mem_cons.1 h with he | hmem
    · rcases min_choice x y with hm | hm
      · exact List.mem_cons.2 (Or.inl (he.trans hm))
      · exact List.mem_cons.2 (Or.inr (List.mem_cons.2 (Or.inl (he.trans hm))))
    · exact List.mem_cons.2 (Or.inr (List.mem_cons.2 (Or.inr hmem)))

theorem foldl_min_le_cons (xs : List Int) : ∀ x t : Int, t ∈ x :: xs → xs.foldl min x ≤ t := by
  induction xs with
  | nil =>
    intro x t ht
    have he : t = x := by simpa using ht
    simp [List.foldl, he]
  | cons y ys ih =>
    intro x t ht
    have hhead : List.foldl min (min x y) ys ≤ min x y :=
      ih (min x y) (min x y) (List.mem_cons.2 (Or.inl rfl))
    have hfold : List.foldl min x (y :: ys) = List.foldl min (min x y) ys := rfl
    rw [hfold]
    rcases List.mem_cons.1 ht with he | ht2
    · rw [he]
      exact le_trans hhead (min_le_left _ _)
    · rcases List.mem_cons.1 ht2 with he | ht3
      · rw [he]
        exact le_trans hhead (min_le_right _ _)
      · exact ih (min x y) t (List.mem_cons.2 (Or.inr ht3))

/-- C7: `getResetTime` returns 0 for an absent or empty bucket; for a
nonempty raw (unpruned) bucket it returns the minimum stored timestamp
plus `windowMs`; when some stored entry is already stale the returned
instant is not in the future; and immediately after the first `admit` of
key `k` at time `t0`, it returns `t0 + windowMs`. -/
theorem resetTime_spec (rl : RateLimiter) (now t0 : Int) (k : String) :
    ((rl.requests.get k).getD [] = [] → rl.getResetTime k = 0)
  ∧ (∀ b, rl.requests.get k = some b → b ≠ [] →
      ∃ t1, t1 ∈ b ∧ rl.getResetTime k = t1 + rl.windowMs ∧ ∀ t ∈ b, t1 ≤ t)
  ∧ (∀ t ∈ (rl.requests.get k).getD [], now - t ≥ rl.windowMs → rl.getResetTime k ≤ now)
  ∧ (rl.requests.get k = none → (rl.checkRateLimit t0 k).1 = true →
      (rl.checkRateLimit t0 k).2.getResetTime k = t0 + rl.windowMs) := by
  refine ⟨?_, ?_, ?_, ?_⟩
  · intro h
    unfold RateLimiter.getResetTime
    rw [h]
  · intro b hb hne
    obtain ⟨x, xs, rfl⟩ : ∃ x xs, b = x :: xs := by
      cases b with
      | nil => exact absurd rfl hne
      | cons x xs => exact ⟨x, xs, rfl⟩
    refine ⟨xs.foldl min x, foldl_min_mem_cons xs x, ?_, foldl_min_le_cons xs x⟩
    unfold RateLimiter.getResetTime
    rw [hb]
    rfl
  · intro t ht hstale
    cases hb : (rl.requests.get k).getD [] with
    | nil => rw [hb] at ht; simp at ht
    | cons x xs =>
      rw [hb] at ht
      have hle : xs.foldl min x ≤ t := foldl_min_le_cons xs x t ht
      unfold RateLimiter.getResetTime
      rw [hb]
      show List.foldl min x xs + rl.windowMs ≤ now
      omega
  · intro hnone htrue
    obtain ⟨hs, -⟩ := checkRateLimit_true_state rl t0 k htrue
    have hv : validRequests rl t0 k = [] := by
      unfold validRequests
      rw [hnone]
      rfl
    rw [hs]
    unfold RateLimiter.getResetTime
    simp only [hv, List.nil_append, ReqMap.get_set_self, Option.getD_some, List.foldl]

theorem filter_self_filter (p : Int → Bool) (l : List Int) :
    (l.filter p).filter p = l.filter p := by
  rw [List.filter_filter]
  congr 1
  funext a
  rw [Bool.and_self]

theorem cleanupEntries_characterization (w now : Int) (m : ReqMap) :
    cleanupEntries w now m =
      (m.map fun e => (e.1, e.2.filter fun time => now - time < w)).filter
        fun e => !e.2.isEmpty := by
  induction m with
  | nil => rfl
  | cons e rest ih =>
    obtain ⟨k2, b⟩ := e
    simp only [cleanupEntries, List.map_cons, List.filter_cons]
    by_cases h : (b.filter fun time => now - time < w).length = 0
    · have hb : (b.filter fun time => now - time < w) = [] := List.length_eq_zero.1 h
      simp [h, hb, ih]
    · have hb : (b.filter fun time => now - time < w) ≠ [] := by
        intro hc
        exact h (by rw [hc]; rfl)
      simp [h, ih, List.isEmpty_iff, hb]

theorem cleanupEntries_idem (w now : Int) (m : ReqMap) :
    cleanupEntries w now (cleanupEntries w now m) = cleanupEntries w now m := by
  induction m with
  | nil => rfl
  | cons e rest ih =>
    obtain ⟨k2, b⟩ := e
    simp only [cleanupEntries]
    by_cases h : (b.filter fun time => now - time < w).length = 0
    · simp only [if_pos h]
      exact ih
    · simp only [if_neg h]
      simp only [cleanupEntries, filter_self_filter, if_neg h, ih]

/-- C9: `cleanup` (the spec's `sweep`) is total by construction, leaves an
empty limiter empty, is idempotent at a fixed instant, and its result is
exactly the fully pruned map: every bucket filtered to the window, entries
with an empty filtered bucket deleted. -/
theorem cleanup_idempotent_total (rl : RateLimiter) (now : Int) :
    (RateLimiter.init rl.maxRequests rl.windowMs).cleanup now =
      RateLimiter.init rl.maxRequests rl.windowMs
  ∧ (rl.cleanup now).cleanup now = rl.cleanup now
  ∧ (rl.cleanup now).requests =
      (rl.requests.map fun e => (e.1, e.2.filter fun time => now - time < rl.windowMs)).filter
        fun e => !e.2.isEmpty := by
  refine ⟨rfl, ?_, cleanupEntries_characterization rl.windowMs now rl.requests⟩
  unfold RateLimiter.cleanup
  simp only
  rw [cleanupEntries_idem]

theorem retryRequest_ok (cfg : CharityAPIConfig) (upstream : Nat → RequestOutcome)
    (c : Nat) (p : String) (hg : clientGet upstream c = .ok p) :
    retryRequest cfg upstream c = ⟨.ok p, 1, []⟩ := by
  unfold retryRequest
  rw [hg]

theorem retryRequest_stop (cfg : CharityAPIConfig) (upstream : Nat → RequestOutcome)
    (c : Nat) (e : CharityAPIError) (hg : clientGet upstream c = .error e)
    (hlt : ¬ c < cfg.maxRetries) :
    retryRequest cfg upstream c = ⟨.error e, 1, []⟩ := by
  unfold retryRequest
  rw [hg]
  simp [hlt]

theorem retryRequest_retry (cfg : CharityAPIConfig) (upstream : Nat → RequestOutcome)
    (c : Nat) (e : CharityAPIError) (hg : clientGet upstream c = .error e)
    (hlt : c < cfg.maxRetries) :
    retryRequest cfg upstream c =
      ⟨(retryRequest cfg upstream (c + 1)).result,
       (retryRequest cfg upstream (c + 1)).attempts + 1,
       cfg.retryDelay * 2 ^ c :: (retryRequest cfg upstream (c + 1)).waits⟩ := by
  conv_lhs => rw [retryRequest]
  rw [hg]
  simp [isRetryableError, CaughtError.response, hlt]

theorem retryRequest_const_err (cfg : CharityAPIConfig) (e : AxiosFailure)
    (upstream : Nat → RequestOutcome) (hu : ∀ i, upstream i = .err e) :
    ∀ n c, cfg.maxRetries - c = n →
      (retryRequest cfg upstream c).attempts = cfg.maxRetries - c + 1 ∧
      (retryRequest cfg upstream c).result = .error (handleAxiosError e) := by
  intro n
  induction n with
  | zero =>
    intro c hc
    have hg : clientGet upstream c = .error (handleAxiosError e) := by
      unfold clientGet
      rw [hu c]
    rw [retryRequest_stop cfg upstream c _ hg (by omega)]
    simp [hc]
  | succ n ih =>
    intro c hc
    have hg : clientGet upstream c = .error (handleAxiosError e) := by
      unfold clientGet
      rw [hu c]
    have h2 := ih (c + 1) (by omega)
    rw [retryRequest_retry cfg upstream c _ hg (by omega)]
    simp [h2.1, h2.2]
    omega

theorem retryRequest_waits (cfg : CharityAPIConfig) (upstream : Nat → RequestOutcome) :
    ∀ n c i, cfg.maxRetries - c = n →
      i < (retryRequest cfg upstream c).waits.length →
      (retryRequest cfg upstream c).waits[i]? = some (cfg.retryDelay * 2 ^ (c + i)) := by
  intro n
  induction n with
  | zero =>
    intro c i hc hi
    cases hg : clientGet upstream c with
    | ok p =>
      rw [retryRequest_ok cfg upstream c p hg] at hi
      simp at hi
    | error e =>
      rw [retryRequest_stop cfg upstream c e hg (by omega)] at hi
      simp at hi
  | succ n ih =>
    intro c i hc hi
    cases hg : clientGet upstream c with
    | ok p =>
      rw [retryRequest_ok cfg upstream c p hg] at hi
      simp at hi
    | error e =>
      rw [retryRequest_retry cfg upstream c e hg (by omega)] at hi ⊢
      cases i with
      | zero => simp
      | succ j =>
        simp only [List.length_cons, Nat.add_lt_add_iff_right] at hi
        simp only [List.getElem?_cons_succ]
        have hj := ih (c + 1) j (by omega) hi
        rw [hj]
        ring_nf

/-- C2: with `maxRetries = M` (any retry base delay, any error message) and
an upstream answering HTTP 500 on every attempt, one client call performs
exactly `M + 1` attempts and settles with the thrown `CharityAPIError`
carrying status code 500. -/
theorem retry_bound_http500 (M d : Nat) (msg : String) :
    (clientCall ⟨M, d⟩ fun _ => .err ⟨some 500, msg⟩).attempts = M + 1
  ∧ (clientCall ⟨M, d⟩ fun _ => .err ⟨some 500, msg⟩).result =
      .error ⟨"Internal server error", some 500⟩ := by
  have h := retryRequest_const_err ⟨M, d⟩ ⟨some 500, msg⟩
    (fun _ => .err ⟨some 500, msg⟩) (fun _ => rfl) M 0 rfl
  unfold clientCall
  simpa [handleAxiosError] using h

/-- C8: in any retry sequence the wait recorded after the `i`-th failed
attempt (0-indexed) is `retryDelay * 2 ^ i`; instantiated by Scenario B
(`maxRetries = 2`, `retryDelay = 100`, two network failures then success):
3 attempts, the success payload, waits 100 ms then 200 ms. -/
theorem backoff_growth (cfg : CharityAPIConfig) (upstream : Nat → RequestOutcome)
    (i : Nat) (hi : i < (clientCall cfg upstream).waits.length) :
    (clientCall cfg upstream).waits[i]? = some (cfg.retryDelay * 2 ^ i)
  ∧ ((clientCall ⟨2, 100⟩ fun j =>
        if j < 2 then .err ⟨none, "Network Error"⟩ else .ok "payload").result = .ok "payload"
      ∧ (clientCall ⟨2, 100⟩ fun j =>
          if j < 2 then .err ⟨none, "Network Error"⟩ else .ok "payload").attempts = 3
      ∧ (clientCall ⟨2, 100⟩ fun j =>
          if j < 2 then .err ⟨none, "Network Error"⟩ else .ok "payload").waits = [100, 200]) := by
  constructor
  · have h := retryRequest_waits cfg upstream cfg.maxRetries 0 i rfl hi
    simpa [clientCall] using h
  · refine ⟨?_, ?_, ?_⟩ <;>
      simp [clientCall, retryRequest, clientGet, handleAxiosError, isRetryableError,
        CaughtError.response]

/-- C8 witness: in Scenario B the second wait (index 1) is
`100 * 2 ^ 1 = 200` milliseconds. -/
theorem backoff_growth_witness :
    (clientCall ⟨2, 100⟩ fun j =>
      if j < 2 then .err ⟨none, "Network Error"⟩ else .ok "payload").waits[1]? = some 200 := by
  have h := backoff_growth ⟨2, 100⟩
    (fun j => if j < 2 then .err ⟨none, "Network Error"⟩ else .ok "payload") 1
    (by simp [clientCall, retryRequest, clientGet, handleAxiosError, isRetryableError,
      CaughtError.response])
  simpa using h.1

/-- C1 evaluated on the code at the failing input: with `maxRetries = 1`
and an upstream answering HTTP 400 on every attempt, one client call
performs 2 attempts with a 100 ms backoff wait before raising the
status-400 `CharityAPIError` — the response interceptor throws a
`CharityAPIError`, which has no `response` property, so `isRetryableError`
takes its network-error branch and classifies the failure retryable, even
though on a genuine `AxiosError` carrying a 400 response it returns
`false` (last conjunct). -/
theorem http400_retried_despite_nonretryable_classification :
    (clientCall ⟨1, 100⟩ fun _ =>
        .err ⟨some 400, "Request failed with status code 400"⟩).attempts = 2
  ∧ (clientCall ⟨1, 100⟩ fun _ =>
        .err ⟨some 400, "Request failed with status code 400"⟩).waits = [100]
  ∧ (clientCall ⟨1, 100⟩ fun _ =>
        .err ⟨some 400, "Request failed with status code 400"⟩).result =
      .error ⟨"Invalid request parameters", some 400⟩
  ∧ isRetryableError (.axios ⟨some 400, "Request failed with status code 400"⟩) = false := by
  refine ⟨?_, ?_, ?_, rfl⟩ <;>
    simp [clientCall, retryRequest, clientGet, handleAxiosError, isRetryableError,
      CaughtError.response]

end CharityMCP
